import Mathlib

/-!
Verification of the resolution / caching / format-selection core of the
video-downloader server (`src/server/api/routers/video.ts`).

The TypeScript source is embedded shallowly:
* `VideoFormat` / `VideoInfo` mirror the interfaces of the source file, with
  every field optional (`Option`), numeric fields as `Int`.
* JavaScript string truthiness (`if (x)` on a `string | undefined`) is modelled
  by `jsTruthy` / explicit `u != ""` tests: a value is "present" when it is a
  non-empty string, which is exactly the test the source performs.
* `Array.prototype.sort` with a comparator is modelled by `jsSort`, a stable
  insertion sort: since ES2019 `sort` is required to be stable, and for the
  consistent comparators used by the source the stable result is unique.
* The in-place nature of `sort` is harmless in the source because it is only
  ever applied to the fresh array produced by `filter`; the `…St` variants of
  the selection functions thread the `VideoInfo` state explicitly so that the
  absence of mutation is a provable statement rather than an artefact.
-/

/-- `VideoFormat` of the source: one entry of the yt-dlp `formats` array.
All fields are optional, numbers are modelled as `Int`. -/
structure VideoFormat where
  format_id : Option String := none
  url : Option String := none
  ext : Option String := none
  protocol : Option String := none
  height : Option Int := none
  width : Option Int := none
  tbr : Option Int := none
  vcodec : Option String := none
  acodec : Option String := none
  filesize : Option Int := none
  format_note : Option String := none
  resolution : Option String := none
deriving DecidableEq

/-- `VideoInfo` of the source: the (possibly cached) result of one extraction. -/
structure VideoInfo where
  url : Option String := none
  ext : Option String := none
  protocol : Option String := none
  formats : Option (List VideoFormat) := none
  title : Option String := none
  thumbnail : Option String := none
  duration : Option Int := none
deriving DecidableEq

/-- JavaScript truthiness of a `string | undefined` value: `undefined` and the
empty string are falsy.  This is the presence test the source uses
(`if (f.url)`, `if (videoInfo.url && …)`). -/
def jsTruthy : Option String → Bool
  | none => false
  | some s => s != ""

/-- `pat` occurs at the head of `l` (helper for `jsIncludes`). -/
def leadsWith : List Char → List Char → Bool
  | [], _ => true
  | _ :: _, [] => false
  | a :: as, b :: bs => a == b && leadsWith as bs

/-- `pat` occurs somewhere in `l` (helper for `jsIncludes`). -/
def occursIn (pat : List Char) : List Char → Bool
  | [] => leadsWith pat []
  | b :: bs => leadsWith pat (b :: bs) || occursIn pat bs

/-- JavaScript `s.includes(pat)`. -/
def jsIncludes (s pat : String) : Bool := occursIn pat.toList s.toList

/-- `o?.includes(pat)` on an optional string: `undefined` is falsy. -/
def optIncludes (o : Option String) (pat : String) : Bool :=
  match o with
  | none => false
  | some s => jsIncludes s pat

/-- Stable insertion of `x` into `l` for a JS comparator: `x` is placed before
the first element `y` with `cmp x y ≤ 0` (so equal elements keep their original
relative order, as ES2019 requires of `Array.prototype.sort`). -/
def orderedInsertCmp {α : Type} (cmp : α → α → Int) (x : α) : List α → List α
  | [] => [x]
  | y :: ys => if cmp x y ≤ 0 then x :: y :: ys else y :: orderedInsertCmp cmp x ys

/-- `arr.sort(cmp)` for a consistent JS comparator: stable sort. -/
def jsSort {α : Type} (cmp : α → α → Int) : List α → List α
  | [] => []
  | x :: xs => orderedInsertCmp cmp x (jsSort cmp xs)

/-- `f.height ?? 0`. -/
def h0 (f : VideoFormat) : Int := f.height.getD 0

/-- `f.tbr ?? 0`. -/
def t0 (f : VideoFormat) : Int := f.tbr.getD 0

/-- The comparator of `selectDownloadUrl`:
`(b.height ?? 0) - (a.height ?? 0) || (b.tbr ?? 0) - (a.tbr ?? 0)`
(JS `x || y` yields `x` when `x` is a non-zero number, else `y`). -/
def cmpDefault (a b : VideoFormat) : Int :=
  if h0 b - h0 a = 0 then t0 b - t0 a else h0 b - h0 a

/-- The filter of the primary tier of `selectDownloadUrl`:
`f.ext === 'mp4' && f.vcodec !== 'none' && f.acodec !== 'none' &&
typeof f.url === 'string'`. -/
def mp4CompleteP (f : VideoFormat) : Bool :=
  f.ext == some "mp4" && !(f.vcodec == some "none") && !(f.acodec == some "none")
    && f.url.isSome

/-- The fallback of `selectDownloadUrl`: `info.formats.find(f => f.ext === 'mp4'
&& typeof f.url === 'string')`, returned when its `url` is truthy.
Runs on the original `formats` array (the sorted array was a `filter` copy). -/
def fallbackMp4St (fmts : List VideoFormat) (info : VideoInfo) :
    Option String × VideoInfo :=
  match fmts.find? (fun f => f.ext == some "mp4" && f.url.isSome) with
  | some anyMp4 =>
    match anyMp4.url with
    | some u => if u != "" then (some u, info) else (none, info)
    | none => (none, info)
  | none => (none, info)

/-- The formats-array stage of `selectDownloadUrl`: filter the complete mp4
formats (a fresh array), sort that copy in place by `cmpDefault`, return the
first element's `url` when truthy; otherwise fall back to `fallbackMp4St`. -/
def mp4StageSt (fmts : List VideoFormat) (info : VideoInfo) :
    Option String × VideoInfo :=
  let mp4Formats := fmts.filter mp4CompleteP
  if mp4Formats.length > 0 then
    match (jsSort cmpDefault mp4Formats).head? with
    | some bestFormat =>
      match bestFormat.url with
      | some u => if u != "" then (some u, info) else fallbackMp4St fmts info
      | none => fallbackMp4St fmts info
    | none => fallbackMp4St fmts info
  else fallbackMp4St fmts info

/-- `selectDownloadUrl(info)` of the source, with the `VideoInfo` state
threaded explicitly (the function performs no write to `info`; the only
in-place operation, `sort`, acts on the `filter` copy inside `mp4StageSt`).
First branch: `if (info.url && (info.ext === 'mp4' ||
info.protocol?.includes('http'))) return info.url`. -/
def selectDownloadUrlSt (info : VideoInfo) : Option String × VideoInfo :=
  if jsTruthy info.url && (info.ext == some "mp4" || optIncludes info.protocol "http") then
    (info.url, info)
  else
    match info.formats with
    | some fmts => mp4StageSt fmts info
    | none => (none, info)

/-- `selectDownloadUrl` as a pure value. -/
def selectDownloadUrl (info : VideoInfo) : Option String :=
  (selectDownloadUrlSt info).1

/-- The selection failures raised by `getDownloadLink`:
`noAudioStream` = `'Could not find any suitable audio stream.'`,
`formatNotFound id` = `'Format ID <id> not found or has no URL.'`,
`noSuitableFormat` = `'Could not determine a suitable default video download URL.'`. -/
inductive SelErr where
  | noAudioStream : SelErr
  | formatNotFound : String → SelErr
  | noSuitableFormat : SelErr
deriving DecidableEq

deriving instance DecidableEq for Except

/-- Primary mp3 filter of `getDownloadLink`: `typeof f.url === 'string' &&
f.acodec !== 'none' && f.vcodec === 'none' && typeof f.tbr === 'number'`. -/
def audioStrictP (f : VideoFormat) : Bool :=
  f.url.isSome && !(f.acodec == some "none") && f.vcodec == some "none" && f.tbr.isSome

/-- Fallback mp3 filter of `getDownloadLink`:
`typeof f.url === 'string' && f.acodec !== 'none'`. -/
def audioAnyP (f : VideoFormat) : Bool :=
  f.url.isSome && !(f.acodec == some "none")

/-- The mp3 comparators of the source: primary `(a, b) => b.tbr - a.tbr` (its
input has `tbr` present by the filter, so `?? 0` is the identity there) and
fallback `(a, b) => (b.tbr ?? 0) - (a.tbr ?? 0)`. -/
def cmpTbr (a b : VideoFormat) : Int := t0 b - t0 a

/-- Fallback tier of the mp3 branch: any format with audio and a url, sorted
descending by `tbr ?? 0`; first truthy url wins, else the audio-stream error. -/
def mp3FallbackSt (info : VideoInfo) : Except SelErr String × VideoInfo :=
  let fallbackAudio := jsSort cmpTbr ((info.formats.getD []).filter audioAnyP)
  match fallbackAudio.head? with
  | some f0 =>
    match f0.url with
    | some u => if u != "" then (Except.ok u, info)
                else (Except.error SelErr.noAudioStream, info)
    | none => (Except.error SelErr.noAudioStream, info)
  | none => (Except.error SelErr.noAudioStream, info)

/-- The `requestedFormatId === 'mp3'` branch of `getDownloadLink`:
audio-only + bitrate filter (a fresh array), sorted in place descending by
bitrate; first truthy url wins, else the fallback tier. -/
def mp3BranchSt (info : VideoInfo) : Except SelErr String × VideoInfo :=
  let audioFormats := jsSort cmpTbr ((info.formats.getD []).filter audioStrictP)
  match audioFormats.head? with
  | some a0 =>
    match a0.url with
    | some u => if u != "" then (Except.ok u, info) else mp3FallbackSt info
    | none => mp3FallbackSt info
  | none => mp3FallbackSt info

/-- The explicit-id branch of `getDownloadLink`:
`(videoInfo.formats ?? []).find(f => f.format_id === requestedFormatId)`,
returning its url when truthy and the format-not-found error otherwise. -/
def explicitBranchSt (rid : String) (info : VideoInfo) :
    Except SelErr String × VideoInfo :=
  match (info.formats.getD []).find? (fun f => f.format_id == some rid) with
  | some specificFormat =>
    match specificFormat.url with
    | some u => if u != "" then (Except.ok u, info)
                else (Except.error (SelErr.formatNotFound rid), info)
    | none => (Except.error (SelErr.formatNotFound rid), info)
  | none => (Except.error (SelErr.formatNotFound rid), info)

/-- `selectDownloadUrl` result checked by the default branch:
`if (!downloadUrl) throw 'Could not determine a suitable default …'`. -/
def defaultSelectSt (info : VideoInfo) : Except SelErr String × VideoInfo :=
  match selectDownloadUrlSt info with
  | (some u, info2) => if u != "" then (Except.ok u, info2)
                       else (Except.error SelErr.noSuitableFormat, info2)
  | (none, info2) => (Except.error SelErr.noSuitableFormat, info2)

/-- The default/direct branch of `getDownloadLink`:
`if (videoInfo.url && (!videoInfo.formats || videoInfo.formats.length === 0))`
return the direct url, else run `selectDownloadUrl`. -/
def defaultBranchSt (info : VideoInfo) : Except SelErr String × VideoInfo :=
  match info.url with
  | some u =>
    if u != "" && (info.formats == none || (info.formats.getD []).length == 0) then
      (Except.ok u, info)
    else defaultSelectSt info
  | none => defaultSelectSt info

/-- `getDownloadLink` (selection part, after `videoInfo` is resolved), with the
state threaded.  Branching of the source: `requestedFormatId === 'mp3'` first,
then `requestedFormatId && requestedFormatId !== 'direct'` (JS truthiness: an
absent or empty id falls through), else the default/direct branch.  The final
`if (!downloadUrl) throw` of the source is unreachable: every branch either
throws or produces a non-empty url. -/
def getDownloadLinkSt (requestedFormatId : Option String) (info : VideoInfo) :
    Except SelErr String × VideoInfo :=
  if requestedFormatId == some "mp3" then mp3BranchSt info
  else
    match requestedFormatId with
    | some rid =>
      if rid != "" && rid != "direct" then explicitBranchSt rid info
      else defaultBranchSt info
    | none => defaultBranchSt info

/-- Selection result of `getDownloadLink` as a pure value. -/
def getDownloadLink (requestedFormatId : Option String) (info : VideoInfo) :
    Except SelErr String :=
  (getDownloadLinkSt requestedFormatId info).1

/-- The shape of one entry returned by `getVideoFormats` to the frontend. -/
structure FrontFormat where
  formatId : Option String
  resolution : String
  ext : Option String
  note : Option String
  fileSize : Option Int
  acodec : Option String
  vcodec : Option String
  tbr : Option Int
  label : String
deriving DecidableEq

/-- JS template interpolation of a `string | undefined` value: `undefined`
prints as `"undefined"`. -/
def optStr : Option String → String
  | some s => s
  | none => "undefined"

/-- JS template interpolation of a `number | undefined` value. -/
def optIntStr : Option Int → String
  | some n => toString n
  | none => "undefined"

/-- The usable-formats filter of `getVideoFormats`:
`f.url && (f.ext === 'mp4' || f.ext === 'webm' || f.acodec !== 'none')`. -/
def usableP (f : VideoFormat) : Bool :=
  jsTruthy f.url && (f.ext == some "mp4" || f.ext == some "webm" || !(f.acodec == some "none"))

/-- The `.map` of `getVideoFormats`: one frontend entry per usable format,
with the label `"<EXT> - <resolution ?? note ?? id>"` suffixed by
`" (Audio Only)"` exactly when `f.acodec !== 'none' && f.vcodec === 'none'`. -/
def toFrontFormat (f : VideoFormat) : FrontFormat :=
  { formatId := f.format_id
    resolution := f.resolution.getD (optIntStr f.width ++ "x" ++ optIntStr f.height)
    ext := f.ext
    note := f.format_note
    fileSize := f.filesize
    acodec := f.acodec
    vcodec := f.vcodec
    tbr := f.tbr
    label := optStr (f.ext.map String.toUpper) ++ " - "
      ++ optStr (f.resolution.orElse fun _ => f.format_note.orElse fun _ => f.format_id)
      ++ (if !(f.acodec == some "none") && f.vcodec == some "none" then " (Audio Only)" else "") }

/-- The synthetic direct-link entry pushed by `getVideoFormats` when no usable
format exists but `videoInfo.url` is truthy. -/
def directEntry (info : VideoInfo) : FrontFormat :=
  { formatId := some "direct"
    resolution := info.title.getD "Direct Link"
    ext := some (info.ext.getD "unknown")
    note := some "Direct Download Link"
    fileSize := none
    acodec := none
    vcodec := none
    tbr := none
    label := (info.ext.map String.toUpper).getD "Direct" ++ " - " ++ info.title.getD "Direct Link" }

/-- `getVideoFormats` (the pure part, after `videoInfo` is resolved): title and
the frontend format list, with the synthetic `"direct"` entry appended when the
filtered list is empty and a truthy direct url exists. -/
def getVideoFormats (info : VideoInfo) : String × List FrontFormat :=
  let usableFormats := ((info.formats.getD []).filter usableP).map toFrontFormat
  let withDirect :=
    if usableFormats.length == 0 && jsTruthy info.url then
      usableFormats ++ [directEntry info]
    else usableFormats
  (info.title.getD "Untitled Video", withDirect)

/-- The closed set of failure kinds produced by the error handler of
`getCachedVideoInfo`; each kind stands for the fixed user-facing message the
source assigns in the corresponding branch, `unknown` for the generic
`'Failed to fetch video information.'`. -/
inductive ErrKind where
  | unsupportedURL : ErrKind
  | extractionFailed : ErrKind
  | authRequired : ErrKind
  | notFound : ErrKind
  | networkUnreachable : ErrKind
  | toolUnavailable : ErrKind
  | unknown : ErrKind
deriving DecidableEq

/-- The substring-based error classification of `getCachedVideoInfo`: the
`if/else if` chain over `error.message.includes(…)`, in source order. -/
def classifyError (msg : String) : ErrKind :=
  if jsIncludes msg "Unsupported URL" then ErrKind.unsupportedURL
  else if jsIncludes msg "Unable to extract video data" || jsIncludes msg "JSON metadata" then
    ErrKind.extractionFailed
  else if jsIncludes msg "private video" || jsIncludes msg "Login required" then
    ErrKind.authRequired
  else if jsIncludes msg "HTTP Error 404" then ErrKind.notFound
  else if jsIncludes msg "net::ERR_NAME_NOT_RESOLVED"
      || jsIncludes msg "Temporary failure in name resolution" then
    ErrKind.networkUnreachable
  else if jsIncludes msg "No such file or directory" || jsIncludes msg "Command failed"
      || jsIncludes msg "ENOENT" then
    ErrKind.toolUnavailable
  else ErrKind.unknown

/-- Spec-side companion for the classification claim: the ordered pattern
table of spec §4.3 (priority order, several patterns per kind). -/
def errPatternTable : List (List String × ErrKind) :=
  [ (["Unsupported URL"], ErrKind.unsupportedURL)
  , (["Unable to extract video data", "JSON metadata"], ErrKind.extractionFailed)
  , (["private video", "Login required"], ErrKind.authRequired)
  , (["HTTP Error 404"], ErrKind.notFound)
  , (["net::ERR_NAME_NOT_RESOLVED", "Temporary failure in name resolution"],
      ErrKind.networkUnreachable)
  , (["No such file or directory", "Command failed", "ENOENT"], ErrKind.toolUnavailable) ]

/-- Spec-side companion: scan an ordered pattern table, first matching kind
wins. -/
def firstMatch (msg : String) : List (List String × ErrKind) → ErrKind
  | [] => ErrKind.unknown
  | pk :: rest =>
    if pk.1.any (fun p => jsIncludes msg p) then pk.2 else firstMatch msg rest

/-- Spec-side companion: first matching kind in priority order wins, `unknown`
when no pattern matches (spec §4.3).  Compared against `classifyError`. -/
def classifyByPriority (msg : String) : ErrKind :=
  firstMatch msg errPatternTable

/-- The cache key of `getCachedVideoInfo`: `` `videoInfo:${videoUrl}` ``. -/
def cacheKey (videoUrl : String) : String := "videoInfo:" ++ videoUrl

/-- `getCachedVideoInfo`, with the extraction capability (`ytdlp.getInfoAsync`)
passed as a function, the cache as an explicit association list (lookup takes
the most recent binding, as `NodeCache.get` returns the stored value), and the
number of extraction invocations reported as the third component.
Cache hit: return the cached value, no extraction.  Miss: extract once; on
success store under the key and return, on failure classify and return the
failure without touching the cache. -/
def getCachedVideoInfo (extract : String → Except String VideoInfo)
    (cache : List (String × VideoInfo)) (videoUrl : String) :
    Except ErrKind VideoInfo × List (String × VideoInfo) × Nat :=
  match cache.lookup (cacheKey videoUrl) with
  | some cachedData => (Except.ok cachedData, cache, 0)
  | none =>
    match extract videoUrl with
    | Except.ok info => (Except.ok info, (cacheKey videoUrl, info) :: cache, 1)
    | Except.error e => (Except.error (classifyError e), cache, 1)

theorem mem_orderedInsertCmp {α : Type} (cmp : α → α → Int) (x y : α) (l : List α) :
    y ∈ orderedInsertCmp cmp x l ↔ y = x ∨ y ∈ l := by
  induction l with
  | nil => simp [orderedInsertCmp]
  | cons b bs ih =>
    by_cases h : cmp x b ≤ 0
    · simp only [orderedInsertCmp, if_pos h, List.mem_cons]
    · simp only [orderedInsertCmp, if_neg h, List.mem_cons, ih]
      tauto

theorem mem_jsSort {α : Type} (cmp : α → α → Int) (y : α) (l : List α) :
    y ∈ jsSort cmp l ↔ y ∈ l := by
  induction l with
  | nil => simp [jsSort]
  | cons b bs ih =>
    simp only [jsSort, mem_orderedInsertCmp, List.mem_cons, ih]

/-- For a reflexive, total, transitive comparator, the stable sort puts an
element that beats every list element (in comparator order) at the head. -/
theorem jsSort_head_best {α : Type} (cmp : α → α → Int)
    (hrefl : ∀ x, cmp x x ≤ 0)
    (htot : ∀ x y, ¬ cmp x y ≤ 0 → cmp y x ≤ 0)
    (htrans : ∀ x y z, cmp x y ≤ 0 → cmp y z ≤ 0 → cmp x z ≤ 0) :
    ∀ (l : List α), l ≠ [] →
      ∃ b t, jsSort cmp l = b :: t ∧ b ∈ l ∧ ∀ g ∈ l, cmp b g ≤ 0 := by
  intro l
  induction l with
  | nil => intro h; exact absurd rfl h
  | cons a l ih =>
    intro _
    cases l with
    | nil =>
      refine ⟨a, [], rfl, List.mem_singleton.mpr rfl, ?_⟩
      intro g hg
      rcases List.mem_singleton.mp hg with rfl
      exact hrefl g
    | cons c cs =>
      obtain ⟨b, t, hsort, hmem, hbest⟩ := ih (by simp)
      have hstep : jsSort cmp (a :: c :: cs) = orderedInsertCmp cmp a (b :: t) := by
        rw [show jsSort cmp (a :: c :: cs) = orderedInsertCmp cmp a (jsSort cmp (c :: cs)) from rfl,
          hsort]
      by_cases hab : cmp a b ≤ 0
      · refine ⟨a, b :: t, ?_, List.mem_cons_self a _, ?_⟩
        · rw [hstep]; simp [orderedInsertCmp, hab]
        · intro g hg
          rcases List.mem_cons.mp hg with hga | hg
          · rw [hga]; exact hrefl a
          · exact htrans a b g hab (hbest g hg)
      · refine ⟨b, orderedInsertCmp cmp a t, ?_, List.mem_cons_of_mem a hmem, ?_⟩
        · rw [hstep]; simp [orderedInsertCmp, hab]
        · intro g hg
          rcases List.mem_cons.mp hg with hga | hg
          · rw [hga]; exact htot a b hab
          · exact hbest g hg

/-- The lexicographic at-most order on `(height ?? 0, tbr ?? 0)` keys used to
state maximality of the default selection. -/
def keyLe (a b : VideoFormat) : Prop :=
  h0 a < h0 b ∨ (h0 a = h0 b ∧ t0 a ≤ t0 b)

theorem cmpDefault_le_iff (a b : VideoFormat) : cmpDefault a b ≤ 0 ↔ keyLe b a := by
  unfold cmpDefault keyLe
  split <;> omega

theorem cmpDefault_refl (x : VideoFormat) : cmpDefault x x ≤ 0 := by
  unfold cmpDefault; omega

theorem cmpDefault_total (x y : VideoFormat) :
    ¬ cmpDefault x y ≤ 0 → cmpDefault y x ≤ 0 := by
  unfold cmpDefault
  split <;> split <;> omega

theorem cmpDefault_trans (x y z : VideoFormat) :
    cmpDefault x y ≤ 0 → cmpDefault y z ≤ 0 → cmpDefault x z ≤ 0 := by
  unfold cmpDefault
  split <;> split <;> split <;> omega

theorem cmpTbr_le_iff (a b : VideoFormat) : cmpTbr a b ≤ 0 ↔ t0 b ≤ t0 a := by
  unfold cmpTbr; omega

theorem cmpTbr_refl (x : VideoFormat) : cmpTbr x x ≤ 0 := by unfold cmpTbr; omega

theorem cmpTbr_total (x y : VideoFormat) : ¬ cmpTbr x y ≤ 0 → cmpTbr y x ≤ 0 := by
  unfold cmpTbr; omega

theorem cmpTbr_trans (x y z : VideoFormat) :
    cmpTbr x y ≤ 0 → cmpTbr y z ≤ 0 → cmpTbr x z ≤ 0 := by
  unfold cmpTbr; omega

/-- `List.find?` returns the element at the first index satisfying the
predicate. -/
theorem find?_eq_of_first {α : Type} (p : α → Bool) :
    ∀ (l : List α) (j : Nat) (hj : j < l.length),
      p (l.get ⟨j, hj⟩) = true →
      (∀ (k : Nat) (hk : k < l.length), k < j → p (l.get ⟨k, hk⟩) = false) →
      l.find? p = some (l.get ⟨j, hj⟩) := by
  intro l
  induction l with
  | nil => intro j hj; exact absurd hj (by simp)
  | cons a as ih =>
    intro j hj hpj hmin
    cases j with
    | zero =>
      simp only [List.get] at hpj
      simp [List.find?, hpj]
    | succ j =>
      have hpa : p a = false := hmin 0 (by simp) (Nat.succ_pos j)
      have hrec := ih j (by simpa using hj)
        (by simpa using hpj)
        (fun k hk hkj => by
          have := hmin (k + 1) (by simpa using hk) (by omega)
          simpa using this)
      simp only [List.find?, hpa]
      simpa using hrec

theorem getDownloadLinkSt_mp3 (info : VideoInfo) :
    getDownloadLinkSt (some "mp3") info = mp3BranchSt info := rfl

theorem getDownloadLinkSt_none (info : VideoInfo) :
    getDownloadLinkSt none info = defaultBranchSt info := rfl

theorem getDownloadLinkSt_direct (info : VideoInfo) :
    getDownloadLinkSt (some "direct") info = defaultBranchSt info := rfl

theorem getDownloadLinkSt_explicit (rid : String) (info : VideoInfo)
    (h1 : rid ≠ "") (h2 : rid ≠ "direct") (h3 : rid ≠ "mp3") :
    getDownloadLinkSt (some rid) info = explicitBranchSt rid info := by
  simp [getDownloadLinkSt, h1, h2, h3]

theorem fallbackMp4St_snd (fmts : List VideoFormat) (info : VideoInfo) :
    (fallbackMp4St fmts info).2 = info := by
  unfold fallbackMp4St
  repeat' split
  all_goals rfl

theorem mp4StageSt_snd (fmts : List VideoFormat) (info : VideoInfo) :
    (mp4StageSt fmts info).2 = info := by
  unfold mp4StageSt
  dsimp only
  repeat' split
  all_goals first | rfl | exact fallbackMp4St_snd fmts info

theorem selectDownloadUrlSt_snd (info : VideoInfo) :
    (selectDownloadUrlSt info).2 = info := by
  unfold selectDownloadUrlSt
  repeat' split
  all_goals first | rfl | apply mp4StageSt_snd

theorem mp3FallbackSt_snd (info : VideoInfo) : (mp3FallbackSt info).2 = info := by
  unfold mp3FallbackSt
  dsimp only
  repeat' split
  all_goals rfl

theorem mp3BranchSt_snd (info : VideoInfo) : (mp3BranchSt info).2 = info := by
  unfold mp3BranchSt
  dsimp only
  repeat' split
  all_goals first | rfl | exact mp3FallbackSt_snd info

theorem explicitBranchSt_snd (rid : String) (info : VideoInfo) :
    (explicitBranchSt rid info).2 = info := by
  unfold explicitBranchSt
  repeat' split
  all_goals rfl

theorem defaultSelectSt_snd (info : VideoInfo) : (defaultSelectSt info).2 = info := by
  have h := selectDownloadUrlSt_snd info
  unfold defaultSelectSt
  rcases hsel : selectDownloadUrlSt info with ⟨r, info2⟩
  rw [hsel] at h
  cases r with
  | none => simpa using h
  | some u =>
    by_cases hu : u != ""
    · simpa [hu] using h
    · simpa [hu] using h

theorem defaultBranchSt_snd (info : VideoInfo) : (defaultBranchSt info).2 = info := by
  unfold defaultBranchSt
  repeat' split
  all_goals first | rfl | exact defaultSelectSt_snd info

theorem getDownloadLinkSt_snd (fid : Option String) (info : VideoInfo) :
    (getDownloadLinkSt fid info).2 = info := by
  unfold getDownloadLinkSt
  repeat' split
  all_goals first
    | exact mp3BranchSt_snd info
    | exact explicitBranchSt_snd _ info
    | exact defaultBranchSt_snd info

/-- Spec §8 example 1: the 1080p mp4 with `acodec: "none"`. -/
def fmt137 : VideoFormat :=
  { format_id := some "137", ext := some "mp4", height := some 1080,
    vcodec := some "avc1", acodec := some "none", url := some "a" }

/-- Spec §8 example 1: the 360p mp4 with both tracks. -/
def fmt18 : VideoFormat :=
  { format_id := some "18", ext := some "mp4", height := some 360,
    vcodec := some "avc1", acodec := some "aac", url := some "b" }

def specC1FmtList : List VideoFormat := [fmt137, fmt18]

def specC1Info : VideoInfo := { formats := some specC1FmtList }

/-- Spec §8 example 2: a complete 720p mp4 with bitrate `b`. -/
def p720 (b : Int) : VideoFormat :=
  { ext := some "mp4", height := some 720, vcodec := some "avc1",
    acodec := some "aac", tbr := some b, url := some "u720" }

/-- Spec §8 example 2: a complete 1080p mp4 with bitrate `b`. -/
def p1080 (b : Int) : VideoFormat :=
  { ext := some "mp4", height := some 1080, vcodec := some "avc1",
    acodec := some "aac", tbr := some b, url := some "u1080" }

/-- Spec §8 example 2, listed lower-resolution first so that the sort has to
reorder: 720p with bitrate `b2`, then 1080p with bitrate `b1`. -/
def specC1Pair (b1 b2 : Int) : VideoInfo :=
  { formats := some [p720 b2, p1080 b1] }

/-- When the complete-mp4 filter is non-empty and no format carries the
degenerate empty-string url, the formats stage returns the url of a filter
element whose `(height ?? 0, tbr ?? 0)` key is maximal. -/
theorem mp4StageSt_best (fmts : List VideoFormat) (info : VideoInfo)
    (hne : fmts.filter mp4CompleteP ≠ [])
    (hclean : ∀ f ∈ fmts, f.url ≠ some "") :
    ∃ f ∈ fmts.filter mp4CompleteP, (mp4StageSt fmts info).1 = f.url ∧
      ∀ g ∈ fmts.filter mp4CompleteP, keyLe g f := by
  obtain ⟨b, t, hsort, hmem, hbest⟩ :=
    jsSort_head_best cmpDefault cmpDefault_refl cmpDefault_total cmpDefault_trans
      (fmts.filter mp4CompleteP) hne
  have hmem' := List.mem_filter.mp hmem
  have hurl : b.url.isSome = true := by
    have hp := hmem'.2
    unfold mp4CompleteP at hp
    simp only [Bool.and_eq_true] at hp
    exact hp.2
  obtain ⟨u, hu⟩ := Option.isSome_iff_exists.mp hurl
  have hune : u ≠ "" := by
    intro h
    exact hclean b hmem'.1 (by rw [hu, h])
  refine ⟨b, hmem, ?_, fun g hg => (cmpDefault_le_iff b g).mp (hbest g hg)⟩
  unfold mp4StageSt
  dsimp only
  rw [if_pos (List.length_pos.mpr hne), hsort]
  simp only [List.head?, hu]
  rw [if_pos (by simp [hune])]

/-- Under a false direct-url condition, `selectDownloadUrl` runs the formats
stage. -/
theorem selectDownloadUrlSt_formats (info : VideoInfo) (fs : List VideoFormat)
    (hfs : info.formats = some fs)
    (hd : (jsTruthy info.url
      && (info.ext == some "mp4" || optIncludes info.protocol "http")) = false) :
    selectDownloadUrlSt info = mp4StageSt fs info := by
  unfold selectDownloadUrlSt
  rw [if_neg (by simp [hd]), hfs]

/-- With a present non-empty formats list the default branch never takes the
direct-url shortcut of `getDownloadLink`. -/
theorem defaultBranchSt_nonEmptyFormats (info : VideoInfo) (fs : List VideoFormat)
    (hfs : info.formats = some fs) (hne : fs ≠ []) :
    defaultBranchSt info = defaultSelectSt info := by
  unfold defaultBranchSt
  cases hu : info.url with
  | none => rfl
  | some u => simp [hfs, hne]

/-- When the direct-url preference condition of `selectDownloadUrl` holds, the
default selection returns the top-level url. -/
theorem defaultSelectSt_directPref (info : VideoInfo) (u : String)
    (hu : info.url = some u) (hune : u ≠ "")
    (hsel : (jsTruthy info.url
      && (info.ext == some "mp4" || optIncludes info.protocol "http")) = true) :
    defaultSelectSt info = (Except.ok u, info) := by
  unfold defaultSelectSt selectDownloadUrlSt
  rw [if_pos hsel, hu]
  simp [hune]

/-- C1: default-variant selection (no `formatId`, not `"mp3"`), when it selects
from the formats list, returns the url of a format maximal in lexicographic
`(height ?? 0, tbr ?? 0)` order among exactly the formats with container mp4,
`videoCodec !== 'none'`, `audioCodec !== 'none'` and url present (a present url
being a non-empty string, the code's own presence test); in particular, on the
spec's two-format list it returns `"b"` (id "18"), and on two complete mp4
formats of heights 720/1080 it returns the 1080 one for all bitrates. -/
theorem c1_default_variant_selection :
    (∀ (info : VideoInfo) (fs : List VideoFormat),
        info.formats = some fs →
        (jsTruthy info.url
          && (info.ext == some "mp4" || optIncludes info.protocol "http")) = false →
        (∀ f ∈ fs, f.url ≠ some "") →
        fs.filter mp4CompleteP ≠ [] →
        ∃ f ∈ fs.filter mp4CompleteP, selectDownloadUrl info = f.url ∧
          ∀ g ∈ fs.filter mp4CompleteP, keyLe g f)
    ∧ getDownloadLink none specC1Info = Except.ok "b"
    ∧ selectDownloadUrl specC1Info = some "b"
    ∧ (∀ b1 b2 : Int, selectDownloadUrl (specC1Pair b1 b2) = some "u1080") := by
  refine ⟨?_, by decide, by decide, ?_⟩
  · intro info fs hfs hd hclean hne
    have hsel : selectDownloadUrl info = (mp4StageSt fs info).1 := by
      unfold selectDownloadUrl
      rw [selectDownloadUrlSt_formats info fs hfs hd]
    rw [hsel]
    exact mp4StageSt_best fs info hne hclean
  · intro b1 b2
    rfl

/-- C1 witness: the general conjunct instantiated at the spec's two-format
list. -/
theorem c1_default_variant_selection_witness :
    ((∀ f ∈ specC1FmtList, f.url ≠ some "") ∧ specC1FmtList.filter mp4CompleteP ≠ []) ∧
    ∃ f ∈ specC1FmtList.filter mp4CompleteP, selectDownloadUrl specC1Info = f.url ∧
      ∀ g ∈ specC1FmtList.filter mp4CompleteP, keyLe g f :=
  ⟨⟨by decide, by decide⟩,
    c1_default_variant_selection.1 specC1Info specC1FmtList rfl (by decide)
      (by decide) (by decide)⟩

/-- The single complete mp4 format of the C2 counterexample. -/
def c2Fmt : VideoFormat :=
  { ext := some "mp4", vcodec := some "avc1", acodec := some "aac",
    height := some 360, url := some "b" }

/-- C2 counterexample input: a top-level direct url with ext `"mp4"` next to a
non-empty formats list. -/
def c2Info : VideoInfo :=
  { url := some "d", ext := some "mp4", formats := some [c2Fmt] }

/-- C2 counterexample: on `c2Info` the formats list is present and non-empty,
yet the default path returns the top-level direct url `"d"`, which is not the
url of any format — `selectDownloadUrl` prefers a truthy `info.url` whenever
`info.ext === 'mp4'` or the protocol contains `'http'`, regardless of the
formats list. -/
theorem c2_counterexample :
    c2Info.formats = some [c2Fmt] ∧ ([c2Fmt] : List VideoFormat) ≠ [] ∧
    c2Info.url = some "d" ∧
    getDownloadLink none c2Info = Except.ok "d" ∧
    (∀ g ∈ [c2Fmt], g.url ≠ some "d") := by decide

/-- C2 (amended): with a present non-empty formats list, the default path
selects from the formats list exactly when the direct-url preference condition
of `selectDownloadUrl` (`info.url` truthy and `info.ext === 'mp4'` or
`info.protocol` contains `'http'`) is false; the top-level direct url is
returned whenever it is truthy and either the formats list is absent/empty or
that preference condition holds. -/
theorem c2_default_direct_vs_formats :
    (∀ (info : VideoInfo) (fs : List VideoFormat),
        info.formats = some fs → fs ≠ [] →
        (jsTruthy info.url
          && (info.ext == some "mp4" || optIncludes info.protocol "http")) = false →
        getDownloadLink none info =
          (match (mp4StageSt fs info).1 with
           | some u => if u != "" then Except.ok u else Except.error SelErr.noSuitableFormat
           | none => Except.error SelErr.noSuitableFormat))
    ∧ (∀ (info : VideoInfo) (u : String),
        info.url = some u → u ≠ "" →
        (info.formats = none ∨ info.formats = some [] ∨ info.ext = some "mp4"
          ∨ optIncludes info.protocol "http" = true) →
        getDownloadLink none info = Except.ok u) := by
  constructor
  · intro info fs hfs hne hd
    have h1 : getDownloadLink none info = (defaultSelectSt info).1 := by
      unfold getDownloadLink
      rw [getDownloadLinkSt_none, defaultBranchSt_nonEmptyFormats info fs hfs hne]
    rw [h1]
    unfold defaultSelectSt
    rw [selectDownloadUrlSt_formats info fs hfs hd]
    rcases hm : mp4StageSt fs info with ⟨r, i2⟩
    cases r with
    | none => rfl
    | some u =>
      by_cases hu : u != ""
      · simp [hu]
      · simp [hu]
  · intro info u hu hune hcase
    have hgd : getDownloadLink none info = (defaultBranchSt info).1 := by
      unfold getDownloadLink
      rw [getDownloadLinkSt_none]
    rw [hgd]
    unfold defaultBranchSt
    rw [hu]
    dsimp only
    by_cases hcond :
        (u != "" && (info.formats == none || (info.formats.getD []).length == 0)) = true
    · rw [if_pos hcond]
    · rw [if_neg hcond]
      rcases hcase with h | h | h | h
      · exact absurd (by simp [h, hune]) hcond
      · exact absurd (by simp [h, hune]) hcond
      · rw [defaultSelectSt_directPref info u hu hune (by simp [jsTruthy, hu, hune, h])]
      · rw [defaultSelectSt_directPref info u hu hune (by simp [jsTruthy, hu, hune, h])]

/-- C2 witness: the direct-url conjunct at a `VideoInfo` with only a direct
url. -/
theorem c2_default_direct_vs_formats_witness :
    ("d" ≠ "") ∧ getDownloadLink none { url := some "d" } = Except.ok "d" :=
  ⟨by decide,
    c2_default_direct_vs_formats.2 { url := some "d" } "d" rfl (by decide) (Or.inl rfl)⟩

/-- When the strict audio filter is non-empty and urls are non-degenerate, the
mp3 branch returns the url of a strict-tier element of maximal bitrate. -/
theorem mp3BranchSt_primary (info : VideoInfo)
    (hclean : ∀ f ∈ info.formats.getD [], f.url ≠ some "")
    (hne : (info.formats.getD []).filter audioStrictP ≠ []) :
    ∃ f ∈ (info.formats.getD []).filter audioStrictP, ∃ u, f.url = some u ∧
      (mp3BranchSt info).1 = Except.ok u ∧
      ∀ g ∈ (info.formats.getD []).filter audioStrictP, t0 g ≤ t0 f := by
  obtain ⟨b, t, hsort, hmem, hbest⟩ :=
    jsSort_head_best cmpTbr cmpTbr_refl cmpTbr_total cmpTbr_trans
      ((info.formats.getD []).filter audioStrictP) hne
  have hmem' := List.mem_filter.mp hmem
  have hurl : b.url.isSome = true := by
    have hp := hmem'.2
    unfold audioStrictP at hp
    simp only [Bool.and_eq_true] at hp
    exact hp.1.1.1
  obtain ⟨u, hu⟩ := Option.isSome_iff_exists.mp hurl
  have hune : u ≠ "" := fun h => hclean b hmem'.1 (by rw [hu, h])
  refine ⟨b, hmem, u, hu, ?_, fun g hg => (cmpTbr_le_iff b g).mp (hbest g hg)⟩
  unfold mp3BranchSt
  dsimp only
  rw [hsort]
  simp only [List.head?, hu]
  rw [if_pos (by simp [hune])]

/-- When the strict tier is empty the mp3 branch runs the fallback tier. -/
theorem mp3BranchSt_of_primEmpty (info : VideoInfo)
    (hprim : (info.formats.getD []).filter audioStrictP = []) :
    mp3BranchSt info = mp3FallbackSt info := by
  unfold mp3BranchSt
  dsimp only
  rw [hprim]
  rfl

/-- When the fallback audio filter is non-empty and urls are non-degenerate,
the fallback tier returns the url of a fallback element of maximal
`tbr ?? 0`. -/
theorem mp3FallbackSt_best (info : VideoInfo)
    (hclean : ∀ f ∈ info.formats.getD [], f.url ≠ some "")
    (hne : (info.formats.getD []).filter audioAnyP ≠ []) :
    ∃ f ∈ (info.formats.getD []).filter audioAnyP, ∃ u, f.url = some u ∧
      (mp3FallbackSt info).1 = Except.ok u ∧
      ∀ g ∈ (info.formats.getD []).filter audioAnyP, t0 g ≤ t0 f := by
  obtain ⟨b, t, hsort, hmem, hbest⟩ :=
    jsSort_head_best cmpTbr cmpTbr_refl cmpTbr_total cmpTbr_trans
      ((info.formats.getD []).filter audioAnyP) hne
  have hmem' := List.mem_filter.mp hmem
  have hurl : b.url.isSome = true := by
    have hp := hmem'.2
    unfold audioAnyP at hp
    simp only [Bool.and_eq_true] at hp
    exact hp.1
  obtain ⟨u, hu⟩ := Option.isSome_iff_exists.mp hurl
  have hune : u ≠ "" := fun h => hclean b hmem'.1 (by rw [hu, h])
  refine ⟨b, hmem, u, hu, ?_, fun g hg => (cmpTbr_le_iff b g).mp (hbest g hg)⟩
  unfold mp3FallbackSt
  dsimp only
  rw [hsort]
  simp only [List.head?, hu]
  rw [if_pos (by simp [hune])]

/-- When even the fallback audio filter is empty, the fallback tier fails with
the audio-stream error. -/
theorem mp3FallbackSt_empty (info : VideoInfo)
    (hfb : (info.formats.getD []).filter audioAnyP = []) :
    mp3FallbackSt info = (Except.error SelErr.noAudioStream, info) := by
  unfold mp3FallbackSt
  dsimp only
  rw [hfb]
  rfl

/-- The strict audio filter is a refinement of the fallback audio filter. -/
theorem audioStrict_sub_audioAny (l : List VideoFormat)
    (hfb : l.filter audioAnyP = []) : l.filter audioStrictP = [] := by
  rw [List.filter_eq_nil_iff] at hfb ⊢
  intro f hf hstrict
  apply hfb f hf
  unfold audioStrictP at hstrict
  unfold audioAnyP
  simp only [Bool.and_eq_true] at hstrict ⊢
  exact hstrict.1.1

/-- Spec §8 example 3: audio-only format at 128 kbit. -/
def a128 : VideoFormat :=
  { format_id := some "a128", ext := some "m4a", vcodec := some "none",
    acodec := some "mp4a", tbr := some 128, url := some "x128" }

/-- Spec §8 example 3: audio-only format at 192 kbit. -/
def a192 : VideoFormat :=
  { format_id := some "a192", ext := some "m4a", vcodec := some "none",
    acodec := some "mp4a", tbr := some 192, url := some "x192" }

/-- Spec §8 example 3: audio-only format without a bitrate. -/
def aNoTbr : VideoFormat :=
  { format_id := some "abs", ext := some "m4a", vcodec := some "none",
    acodec := some "mp4a", url := some "xabs" }

def specC3Info : VideoInfo := { formats := some [a128, a192, aNoTbr] }

/-- C3: best-audio selection (`formatId` `"mp3"`) first filters to
`audioCodec !== 'none' ∧ videoCodec === 'none' ∧ url present ∧ bitrate
present` and returns the url of a maximal-bitrate entry; when that tier is
empty it falls back to `audioCodec !== 'none' ∧ url present` sorted by
`tbr ?? 0`; when that is empty too it fails with `NoAudioStream`.  On the
spec's `[128, 192, absent]` example it returns the 192 entry. -/
theorem c3_best_audio_selection :
    (∀ (info : VideoInfo),
        (∀ f ∈ info.formats.getD [], f.url ≠ some "") →
        (info.formats.getD []).filter audioStrictP ≠ [] →
        ∃ f ∈ (info.formats.getD []).filter audioStrictP, ∃ u, f.url = some u ∧
          getDownloadLink (some "mp3") info = Except.ok u ∧
          ∀ g ∈ (info.formats.getD []).filter audioStrictP, t0 g ≤ t0 f)
    ∧ (∀ (info : VideoInfo),
        (∀ f ∈ info.formats.getD [], f.url ≠ some "") →
        (info.formats.getD []).filter audioStrictP = [] →
        (info.formats.getD []).filter audioAnyP ≠ [] →
        ∃ f ∈ (info.formats.getD []).filter audioAnyP, ∃ u, f.url = some u ∧
          getDownloadLink (some "mp3") info = Except.ok u ∧
          ∀ g ∈ (info.formats.getD []).filter audioAnyP, t0 g ≤ t0 f)
    ∧ (∀ (info : VideoInfo),
        (info.formats.getD []).filter audioAnyP = [] →
        getDownloadLink (some "mp3") info = Except.error SelErr.noAudioStream)
    ∧ getDownloadLink (some "mp3") specC3Info = Except.ok "x192" := by
  refine ⟨?_, ?_, ?_, by decide⟩
  · intro info hclean hne
    have h := mp3BranchSt_primary info hclean hne
    simpa [getDownloadLink, getDownloadLinkSt_mp3] using h
  · intro info hclean hprim hne
    have h := mp3FallbackSt_best info hclean hne
    have hred : getDownloadLink (some "mp3") info = (mp3FallbackSt info).1 := by
      unfold getDownloadLink
      rw [getDownloadLinkSt_mp3, mp3BranchSt_of_primEmpty info hprim]
    rw [hred]
    exact h
  · intro info hfb
    have hprim := audioStrict_sub_audioAny _ hfb
    unfold getDownloadLink
    rw [getDownloadLinkSt_mp3, mp3BranchSt_of_primEmpty info hprim,
      mp3FallbackSt_empty info hfb]

/-- C3 witness: the strict-tier conjunct instantiated at the spec's
three-format audio example. -/
theorem c3_best_audio_selection_witness :
    ((∀ f ∈ specC3Info.formats.getD [], f.url ≠ some "") ∧
      (specC3Info.formats.getD []).filter audioStrictP ≠ []) ∧
    ∃ f ∈ (specC3Info.formats.getD []).filter audioStrictP, ∃ u, f.url = some u ∧
      getDownloadLink (some "mp3") specC3Info = Except.ok u ∧
      ∀ g ∈ (specC3Info.formats.getD []).filter audioStrictP, t0 g ≤ t0 f :=
  ⟨⟨by decide, by decide⟩, c3_best_audio_selection.1 specC3Info (by decide) (by decide)⟩

/-- C4: explicit-id selection (`formatId` given — i.e. non-empty — and neither
`"direct"` nor `"mp3"`) matches the id exactly against `Format.id`, taking the
first match in list order: a first match with a present (non-empty) url is
returned; no match at all, or a first match without a usable url, fails with
`FormatNotFound`. -/
theorem c4_explicit_id_selection :
    ∀ (info : VideoInfo) (rid : String), rid ≠ "" → rid ≠ "direct" → rid ≠ "mp3" →
      (∀ (j : Nat) (hj : j < (info.formats.getD []).length) (u : String),
          ((info.formats.getD []).get ⟨j, hj⟩).format_id = some rid →
          (∀ (k : Nat) (hk : k < (info.formats.getD []).length), k < j →
            ((info.formats.getD []).get ⟨k, hk⟩).format_id ≠ some rid) →
          ((info.formats.getD []).get ⟨j, hj⟩).url = some u → u ≠ "" →
          getDownloadLink (some rid) info = Except.ok u)
      ∧ ((∀ f ∈ info.formats.getD [], f.format_id ≠ some rid) →
          getDownloadLink (some rid) info = Except.error (SelErr.formatNotFound rid))
      ∧ (∀ (j : Nat) (hj : j < (info.formats.getD []).length),
          ((info.formats.getD []).get ⟨j, hj⟩).format_id = some rid →
          (∀ (k : Nat) (hk : k < (info.formats.getD []).length), k < j →
            ((info.formats.getD []).get ⟨k, hk⟩).format_id ≠ some rid) →
          jsTruthy ((info.formats.getD []).get ⟨j, hj⟩).url = false →
          getDownloadLink (some rid) info = Except.error (SelErr.formatNotFound rid)) := by
  intro info rid h1 h2 h3
  have hred : getDownloadLink (some rid) info = (explicitBranchSt rid info).1 := by
    unfold getDownloadLink
    rw [getDownloadLinkSt_explicit rid info h1 h2 h3]
  refine ⟨?_, ?_, ?_⟩
  · intro j hj u hjid hmin hurl hune
    have hfind : (info.formats.getD []).find? (fun f => f.format_id == some rid)
        = some ((info.formats.getD []).get ⟨j, hj⟩) :=
      find?_eq_of_first _ _ j hj (by simpa using hjid)
        (fun k hk hkj => beq_eq_false_iff_ne.mpr (hmin k hk hkj))
    rw [hred]
    unfold explicitBranchSt
    rw [hfind]
    dsimp only
    rw [hurl]
    dsimp only
    rw [if_pos (by simp [hune])]
  · intro hall
    have hfind : (info.formats.getD []).find? (fun f => f.format_id == some rid) = none :=
      List.find?_eq_none.mpr (fun f hf => by simp [hall f hf])
    rw [hred]
    unfold explicitBranchSt
    rw [hfind]
  · intro j hj hjid hmin hfalsy
    have hfind : (info.formats.getD []).find? (fun f => f.format_id == some rid)
        = some ((info.formats.getD []).get ⟨j, hj⟩) :=
      find?_eq_of_first _ _ j hj (by simpa using hjid)
        (fun k hk hkj => beq_eq_false_iff_ne.mpr (hmin k hk hkj))
    rw [hred]
    unfold explicitBranchSt
    rw [hfind]
    dsimp only
    cases hurl : ((info.formats.getD []).get ⟨j, hj⟩).url with
    | none => rfl
    | some u =>
      rw [hurl] at hfalsy
      simp only [jsTruthy] at hfalsy
      dsimp only
      rw [if_neg (by simp [hfalsy])]

/-- The single format of the C4 witness input. -/
def c4Fmt : VideoFormat := { format_id := some "22", url := some "w" }

def c4Info : VideoInfo := { formats := some [c4Fmt] }

/-- C4 witness: the positive conjunct at a one-element formats list. -/
theorem c4_explicit_id_selection_witness :
    (("22" : String) ≠ "" ∧ ("22" : String) ≠ "direct" ∧ ("22" : String) ≠ "mp3") ∧
    getDownloadLink (some "22") c4Info = Except.ok "w" :=
  ⟨⟨by decide, by decide, by decide⟩,
    (c4_explicit_id_selection c4Info "22" (by decide) (by decide) (by decide)).1
      0 (by decide) "w" (by decide) (fun k hk hkk => absurd hkk (Nat.not_lt_zero k))
      (by decide) (by decide)⟩

/-- The complete mp4 format of the C5 counterexample. -/
def c5Fmt : VideoFormat :=
  { format_id := some "22", ext := some "mp4", vcodec := some "avc1",
    acodec := some "aac", height := some 720, url := some "b" }

/-- C5 counterexample input: no top-level direct url, one complete mp4
format. -/
def c5Info : VideoInfo := { formats := some [c5Fmt] }

/-- C5 counterexample: on `c5Info` the direct url is absent, yet
`getDownloadLink` with the literal formatId `"direct"` does not fail with
`FormatNotFound` — it falls into the default-variant branch and returns the
best mp4 format's url `"b"`. -/
theorem c5_counterexample :
    c5Info.url = none ∧ getDownloadLink (some "direct") c5Info = Except.ok "b" := by
  decide

/-- C5 (amended): the literal formatId `"direct"` is routed to the very same
default-variant branch as an absent formatId (the guard
`requestedFormatId && requestedFormatId !== 'direct'` excludes it from the
explicit-id branch); in particular the direct url is returned when it is
present (non-empty) and the formats list is absent or empty, and any failure
of this path is the default-selection error, not `FormatNotFound`. -/
theorem c5_direct_equals_default :
    (∀ info : VideoInfo,
        getDownloadLink (some "direct") info = getDownloadLink none info)
    ∧ (∀ (info : VideoInfo) (u : String),
        info.url = some u → u ≠ "" →
        (info.formats = none ∨ info.formats = some []) →
        getDownloadLink (some "direct") info = Except.ok u) := by
  constructor
  · intro info
    rfl
  · intro info u hu hune hfmts
    show (getDownloadLinkSt (some "direct") info).1 = Except.ok u
    rw [getDownloadLinkSt_direct]
    unfold defaultBranchSt
    rw [hu]
    dsimp only
    rw [if_pos]
    rcases hfmts with h | h <;> simp [h, hune]

/-- C5 witness: the direct-url conjunct of the amended claim at a
formats-free `VideoInfo`. -/
theorem c5_direct_equals_default_witness :
    (("dl" : String) ≠ "") ∧
    getDownloadLink (some "direct") { url := some "dl" } = Except.ok "dl" :=
  ⟨by decide,
    c5_direct_equals_default.2 { url := some "dl" } "dl" rfl (by decide) (Or.inl rfl)⟩

/-- C6: the error classification is exactly the first-match scan of the
ordered pattern table (UnsupportedURL, ExtractionFailed, AuthRequired,
NotFound, NetworkUnreachable, ToolUnavailable, with `unknown` when nothing
matches), and a raw failure text containing one of the two name-resolution
phrases never classifies as `unknown`. -/
theorem c6_error_classification :
    (∀ msg : String, classifyError msg = classifyByPriority msg)
    ∧ (∀ msg : String,
        (jsIncludes msg "net::ERR_NAME_NOT_RESOLVED"
          || jsIncludes msg "Temporary failure in name resolution") = true →
        classifyError msg ≠ ErrKind.unknown) := by
  constructor
  · intro msg
    unfold classifyError classifyByPriority errPatternTable
    simp [firstMatch, List.any, Bool.or_assoc]
  · intro msg hdns hunk
    unfold classifyError at hunk
    split_ifs at hunk with h1 h2 h3 h4

/-- A raw error text containing a DNS phrase, used as the C6 witness input. -/
def dnsMsg : String := "ERROR: Temporary failure in name resolution"

/-- C6 witness: the DNS conjunct at a concrete raw error text. -/
theorem c6_error_classification_witness :
    ((jsIncludes dnsMsg "net::ERR_NAME_NOT_RESOLVED"
      || jsIncludes dnsMsg "Temporary failure in name resolution") = true) ∧
    classifyError dnsMsg ≠ ErrKind.unknown :=
  ⟨by decide, c6_error_classification.2 dnsMsg (by decide)⟩

/-- C7: resolution consults the cache first — a hit returns the cached
`VideoInfo` with no extraction call and an unchanged cache; a miss invokes
extraction exactly once, storing the result under the cache key only on
success; on failure the cache is unchanged, so an immediately repeated call
for the same failing url invokes extraction again. -/
theorem c7_cache_resolution :
    (∀ (extract : String → Except String VideoInfo)
        (cache : List (String × VideoInfo)) (u : String) (v : VideoInfo),
        cache.lookup (cacheKey u) = some v →
        getCachedVideoInfo extract cache u = (Except.ok v, cache, 0))
    ∧ (∀ (extract : String → Except String VideoInfo)
        (cache : List (String × VideoInfo)) (u : String) (v : VideoInfo),
        cache.lookup (cacheKey u) = none → extract u = Except.ok v →
        getCachedVideoInfo extract cache u = (Except.ok v, (cacheKey u, v) :: cache, 1))
    ∧ (∀ (extract : String → Except String VideoInfo)
        (cache : List (String × VideoInfo)) (u : String) (e : String),
        cache.lookup (cacheKey u) = none → extract u = Except.error e →
        getCachedVideoInfo extract cache u = (Except.error (classifyError e), cache, 1)
          ∧ (getCachedVideoInfo extract
              (getCachedVideoInfo extract cache u).2.1 u).2.2 = 1) := by
  refine ⟨?_, ?_, ?_⟩
  · intro extract cache u v hhit
    unfold getCachedVideoInfo
    rw [hhit]
  · intro extract cache u v hmiss hok
    unfold getCachedVideoInfo
    rw [hmiss, hok]
  · intro extract cache u e hmiss herr
    have h1 : getCachedVideoInfo extract cache u
        = (Except.error (classifyError e), cache, 1) := by
      unfold getCachedVideoInfo
      rw [hmiss, herr]
    refine ⟨h1, ?_⟩
    rw [h1]
    unfold getCachedVideoInfo
    rw [hmiss, herr]

/-- An extraction stub that always fails, used as the C7 witness input. -/
def failingExtract : String → Except String VideoInfo :=
  fun _ => Except.error "Temporary failure in name resolution"

/-- C7 witness: the failure conjunct on an empty cache with an
always-failing extraction. -/
theorem c7_cache_resolution_witness :
    (([] : List (String × VideoInfo)).lookup (cacheKey "https://a") = none
      ∧ failingExtract "https://a" = Except.error "Temporary failure in name resolution") ∧
    (getCachedVideoInfo failingExtract [] "https://a"
        = (Except.error (classifyError "Temporary failure in name resolution"), [], 1)
      ∧ (getCachedVideoInfo failingExtract
          (getCachedVideoInfo failingExtract [] "https://a").2.1 "https://a").2.2 = 1) :=
  ⟨⟨rfl, rfl⟩,
    c7_cache_resolution.2.2 failingExtract [] "https://a"
      "Temporary failure in name resolution" rfl rfl⟩

/-- C8: with an absent or empty formats list but a present direct url,
`getVideoFormats` returns exactly one entry, carrying id `"direct"`, and
`getDownloadLink` with formatId `"direct"` returns the direct url. -/
theorem c8_direct_synthesis :
    ∀ (info : VideoInfo) (u : String),
      (info.formats = none ∨ info.formats = some []) →
      info.url = some u → u ≠ "" →
      ((getVideoFormats info).2.length = 1
        ∧ ∀ e ∈ (getVideoFormats info).2, e.formatId = some "direct")
      ∧ getDownloadLink (some "direct") info = Except.ok u := by
  intro info u hfmts hu hune
  constructor
  · have husable : ((info.formats.getD []).filter usableP).map toFrontFormat = [] := by
      rcases hfmts with h | h <;> simp [h]
    constructor
    · simp [getVideoFormats, husable, hu, hune, jsTruthy]
    · intro e he
      simp only [getVideoFormats, husable, hu, jsTruthy] at he
      simp [hune] at he
      rw [he]
      rfl
  · show (getDownloadLinkSt (some "direct") info).1 = Except.ok u
    rw [getDownloadLinkSt_direct]
    unfold defaultBranchSt
    rw [hu]
    dsimp only
    rw [if_pos]
    rcases hfmts with h | h <;> simp [h, hune]

/-- C8 witness: a `VideoInfo` holding only a direct url. -/
theorem c8_direct_synthesis_witness :
    (("v" : String) ≠ "") ∧
    (((getVideoFormats { url := some "v" }).2.length = 1
        ∧ ∀ e ∈ (getVideoFormats { url := some "v" } : String × List FrontFormat).2,
            e.formatId = some "direct")
      ∧ getDownloadLink (some "direct") { url := some "v" } = Except.ok "v") :=
  ⟨by decide, c8_direct_synthesis { url := some "v" } "v" (Or.inl rfl) rfl (by decide)⟩

/-- C9: variant selection never mutates its `VideoInfo` argument — for every
request class the threaded state returned by `getDownloadLinkSt` (and by the
`selectDownloadUrl` helper) is the argument itself, formats list, order and
all format fields included. -/
theorem c9_selection_no_mutation :
    ∀ (fid : Option String) (info : VideoInfo),
      (getDownloadLinkSt fid info).2 = info ∧ (selectDownloadUrlSt info).2 = info :=
  fun fid info => ⟨getDownloadLinkSt_snd fid info, selectDownloadUrlSt_snd info⟩

/-- C10: in best-audio selection an absent `audioCodec` counts as audio
(`f.acodec !== 'none'` holds for `undefined`), while an absent `videoCodec`
fails the literal `f.vcodec === 'none'` test of the strict tier; so a
`VideoInfo` whose formats all lack both codec fields but carry urls resolves
`"mp3"` through the fallback tier to the highest-bitrate url
(absent bitrate as 0) instead of failing with `NoAudioStream`. -/
theorem c10_absent_audiocodec_fallback :
    ∀ (info : VideoInfo) (fs : List VideoFormat),
      info.formats = some fs → fs ≠ [] →
      (∀ f ∈ fs, f.acodec = none ∧ f.vcodec = none
        ∧ f.url.isSome = true ∧ f.url ≠ some "") →
      fs.filter audioStrictP = [] ∧
      ∃ f ∈ fs, ∃ u, f.url = some u ∧
        getDownloadLink (some "mp3") info = Except.ok u ∧
        ∀ g ∈ fs, t0 g ≤ t0 f := by
  intro info fs hfs hne hall
  have hgetD : info.formats.getD [] = fs := by rw [hfs]; rfl
  have hprim : fs.filter audioStrictP = [] := by
    rw [List.filter_eq_nil_iff]
    intro f hf
    have hv := (hall f hf).2.1
    unfold audioStrictP
    simp [hv]
  have hfb : fs.filter audioAnyP = fs := by
    rw [List.filter_eq_self]
    intro f hf
    have h := hall f hf
    unfold audioAnyP
    simp [h.1, h.2.2.1]
  have hclean : ∀ f ∈ info.formats.getD [], f.url ≠ some "" := by
    rw [hgetD]
    intro f hf
    exact (hall f hf).2.2.2
  have hne2 : (info.formats.getD []).filter audioAnyP ≠ [] := by
    rw [hgetD, hfb]
    exact hne
  obtain ⟨f, hfmem, u, hu, hres, hmax⟩ := mp3FallbackSt_best info hclean hne2
  rw [hgetD, hfb] at hfmem hmax
  have hprim2 : (info.formats.getD []).filter audioStrictP = [] := by
    rw [hgetD]
    exact hprim
  refine ⟨hprim, f, hfmem, u, hu, ?_, hmax⟩
  unfold getDownloadLink
  rw [getDownloadLinkSt_mp3, mp3BranchSt_of_primEmpty info hprim2]
  exact hres

/-- A codec-free audio candidate at 64 kbit, for the C10 witness. -/
def c10F1 : VideoFormat := { url := some "p", tbr := some 64 }

/-- A codec-free audio candidate at 96 kbit, for the C10 witness. -/
def c10F2 : VideoFormat := { url := some "q", tbr := some 96 }

def c10Info : VideoInfo := { formats := some [c10F1, c10F2] }

/-- C10 witness: two formats lacking both codec fields. -/
theorem c10_absent_audiocodec_fallback_witness :
    (([c10F1, c10F2] : List VideoFormat) ≠ []
      ∧ ∀ f ∈ [c10F1, c10F2], f.acodec = none ∧ f.vcodec = none
          ∧ f.url.isSome = true ∧ f.url ≠ some "") ∧
    ([c10F1, c10F2].filter audioStrictP = [] ∧
      ∃ f ∈ [c10F1, c10F2], ∃ u, f.url = some u ∧
        getDownloadLink (some "mp3") c10Info = Except.ok u ∧
        ∀ g ∈ [c10F1, c10F2], t0 g ≤ t0 f) :=
  ⟨⟨by decide, by decide⟩,
    c10_absent_audiocodec_fallback c10Info [c10F1, c10F2] rfl (by decide) (by decide)⟩
